import Mathlib

/-!
Shallow embedding of the moleculab core (src/modules/atom/index.ts) over the
real numbers.  JavaScript numbers are modelled as elements of `ℝ`; the
JavaScript falsiness of `0` (for `x || d`) and of the empty string is made
explicit in the helpers `numOr` and `strOr`.  `Math.atan2 y x` is modelled as
`Complex.arg ⟨x, y⟩`, which agrees with `atan2` on its range `(-π, π]` and at
the origin.  Object reference identity (JavaScript `===`), used by bond
membership, is modelled by a `ref : ℕ` field on `Atom` (an arena index, as the
spec itself suggests).
-/

/-- Modelled from the spec: the `Vector2` class of `src/modules/physics/vector`
is imported by the atom module but its file is not part of the given sources.
Per spec section 4.1 it is an immutable pair of reals. -/
structure Vector2 where
  x : ℝ
  y : ℝ

/-- Modelled from the spec: componentwise vector addition (called `sum` at the
call sites in the atom module). -/
def Vector2.sum (v w : Vector2) : Vector2 :=
  ⟨v.x + w.x, v.y + w.y⟩

/-- Modelled from the spec: componentwise vector subtraction (called `sub` at
the call sites in the atom module). -/
def Vector2.sub (v w : Vector2) : Vector2 :=
  ⟨v.x - w.x, v.y - w.y⟩

/-- Modelled from the spec: scalar multiplication (called `multi` at the call
sites in the atom module). -/
def Vector2.multi (v : Vector2) (k : ℝ) : Vector2 :=
  ⟨v.x * k, v.y * k⟩

/-- Modelled from the spec: Euclidean norm, spec section 4.1:
`length() = sqrt(x² + y²)`. -/
noncomputable def Vector2.length (v : Vector2) : ℝ :=
  Real.sqrt (v.x ^ 2 + v.y ^ 2)

/-- Isotope records are opaque data for the core (spec section 1). -/
def Isotope : Type := Unit

/-- The open record of optional chemical attributes (`AtomProperties`). -/
structure AtomProperties where
  atomicNumber : Option ℝ := none
  atomicMass : Option ℝ := none
  symbol : Option String := none
  electronConfiguration : Option String := none
  atomicRadius : Option ℝ := none
  electronegativity : Option ℝ := none
  ionizationEnergy : Option ℝ := none
  electronAffinity : Option ℝ := none
  oxidationState : Option ℝ := none
  protons : Option ℝ := none
  neutrons : Option ℝ := none
  electrons : Option ℝ := none
  isotopes : Option (List Isotope) := none

/-- The optional construction configuration (`AtomConfig`). -/
structure AtomConfig where
  pos : Option Vector2 := none
  vel : Option Vector2 := none
  size : Option ℝ := none
  id : Option String := none
  friction : Option ℝ := none
  properties : Option AtomProperties := none

/-- The `Atom` entity.  `ref` models the JavaScript object reference used for
identity comparison in bond membership. -/
structure Atom where
  pos : Vector2 := ⟨0, 0⟩
  vel : Vector2 := ⟨0, 0⟩
  selected : Bool := false
  size : ℝ := 25
  id : String := ""
  friction : ℝ := 1
  properties : AtomProperties := {}
  ref : ℕ := 0

/-- JavaScript `o || d` on an optional number: `undefined` and `0` are falsy
and give the default. -/
noncomputable def numOr (o : Option ℝ) (d : ℝ) : ℝ :=
  match o with
  | none => d
  | some v => if v = 0 then d else v

/-- JavaScript `o || d` on an optional string: `undefined` and `""` are falsy
and give the default. -/
def strOr (o : Option String) (d : String) : String :=
  match o with
  | none => d
  | some s => if s = "" then d else s

/-- The `Atom` constructor.  `freshId` stands for the string produced by
`generateUniqueID()` and `ref` for the fresh object reference. -/
noncomputable def mkAtom (config : Option AtomConfig) (freshId : String) (ref : ℕ) : Atom :=
  let c := config.getD {}
  let props := c.properties.getD {}
  { pos := c.pos.getD ⟨0, 0⟩
    vel := c.vel.getD ⟨0, 0⟩
    selected := false
    size := numOr c.size 25 + (numOr props.atomicMass 1) ^ (1.2 : ℝ) / 10
    id := strOr c.id freshId
    friction := numOr c.friction 1
    properties := props
    ref := ref }

/-- `getAnimatedSize()`:
`size * (1 + min(vel.length, size*2) / (size*10))`. -/
noncomputable def Atom.getAnimatedSize (a : Atom) : ℝ :=
  a.size * (1 + min (a.vel.length) (a.size * 2) / (a.size * 10))

/-- The style record returned by `getStyle()`. -/
structure AtomStyle where
  color : String
  atomicNumberSize : ℝ
  symbolFontSize : ℝ
  atomicMassSize : ℝ

/-- `getStyle()`: starts from the default record and conditionally overwrites
each field, guarded by JavaScript truthiness of the corresponding property. -/
noncomputable def Atom.getStyle (a : Atom) : AtomStyle :=
  let color :=
    match a.properties.electronegativity with
    | none => "#0095DD"
    | some en =>
        if en = 0 then "#0095DD"
        else if en ≤ 1.0 then "#74D77F"
        else if en ≤ 2.0 then "#FFF176"
        else "#FF7043"
  let atomicNumberSize :=
    match a.properties.atomicNumber with
    | none => (10 : ℝ)
    | some n => if n = 0 then 10 else max 8 (min 20 (n / 10))
  let atomicMassSize :=
    match a.properties.atomicMass with
    | none => (8 : ℝ)
    | some m => if m = 0 then 8 else max 6 (min 14 (m / 40))
  let symbolFontSize :=
    match a.properties.symbol with
    | none => (24 : ℝ)
    | some s => if s = "" then 24 else max 16 (min 32 (24 + (s.length : ℝ) * 2))
  { color := color
    atomicNumberSize := atomicNumberSize
    symbolFontSize := symbolFontSize
    atomicMassSize := atomicMassSize }

/-- `calcPosition(delta)`: snap the velocity to zero below the `1e-5`
threshold, otherwise apply the frictional deceleration and then move the
position using the updated velocity. -/
noncomputable def Atom.calcPosition (a : Atom) (delta : ℝ) : Atom :=
  if a.vel.length < 1e-5 then
    { a with vel := ⟨0, 0⟩ }
  else
    let frictionForce := a.vel.multi (-a.friction)
    let vel2 := a.vel.sum
      (frictionForce.multi (delta * (1 / Real.log (numOr a.properties.atomicMass 2)) * 20))
    let pos2 := a.pos.sum
      (vel2.multi (delta * (1 / Real.log (numOr a.properties.atomicMass 2)) * 20))
    { a with vel := vel2, pos := pos2 }

/-- Modelled from the spec: the `Bond` class of `src/modules/atom/bond` is
imported by the atom module but its file is not part of the given sources.
Per spec section 4.2 it is a pair of `Atom` references, order as given. -/
structure Bond where
  atom1 : Atom
  atom2 : Atom

/-- `isBondedWith(bonds, otherAtom)`: scans the bond list for a bond joining
`a` and `other` by reference identity, in either order. -/
def Atom.isBondedWith (a : Atom) (bonds : List Bond) (other : Atom) : Bool :=
  bonds.any fun bond =>
    (bond.atom1.ref == a.ref && bond.atom2.ref == other.ref) ||
    (bond.atom1.ref == other.ref && bond.atom2.ref == a.ref)

/-- `Math.atan2 y x`, modelled as the argument of the complex number
`x + y*i`, which has the same value on `(-π, π]` and at the origin. -/
noncomputable def atan2 (y x : ℝ) : ℝ :=
  Complex.arg ⟨x, y⟩

/-- `static calculateAngle(bonds, atom1, atom2, atom3)`: `none` unless the
three atoms are pairwise bonded; otherwise the angle at the vertex `atom2`
from ray `atom2 → atom1` to ray `atom2 → atom3`, normalized into `[0, 2π)`
and converted to degrees. -/
noncomputable def Atom.calculateAngle (bonds : List Bond) (atom1 atom2 atom3 : Atom) :
    Option ℝ :=
  if atom1.isBondedWith bonds atom2 && atom2.isBondedWith bonds atom3 &&
      atom3.isBondedWith bonds atom1 then
    let vector1 := atom1.pos.sub atom2.pos
    let vector2 := atom3.pos.sub atom2.pos
    let angleInRadians := atan2 vector2.y vector2.x - atan2 vector1.y vector1.x
    let normalized := if angleInRadians < 0 then angleInRadians + 2 * Real.pi else angleInRadians
    some (normalized * (180 / Real.pi))
  else
    none

/-! ## Shared helper lemmas -/

lemma length_nonneg (v : Vector2) : 0 ≤ v.length :=
  Real.sqrt_nonneg _

lemma length_multi (v : Vector2) (c : ℝ) : (v.multi c).length = |c| * v.length := by
  unfold Vector2.multi Vector2.length
  rw [show (v.x * c) ^ 2 + (v.y * c) ^ 2 = c ^ 2 * (v.x ^ 2 + v.y ^ 2) by ring,
    Real.sqrt_mul (sq_nonneg c), Real.sqrt_sq_eq_abs]

lemma sum_multi_neg (v : Vector2) (f c : ℝ) :
    v.sum ((v.multi (-f)).multi c) = v.multi (1 - f * c) := by
  simp only [Vector2.sum, Vector2.multi, Vector2.mk.injEq]
  constructor <;> ring

lemma calcPosition_of_lt (a : Atom) (delta : ℝ) (h : a.vel.length < 1e-5) :
    a.calcPosition delta = { a with vel := ⟨0, 0⟩ } := by
  simp [Atom.calcPosition, h]

lemma calcPosition_of_ge (a : Atom) (delta : ℝ) (h : ¬ a.vel.length < 1e-5) :
    a.calcPosition delta =
      { a with
        vel := a.vel.sum ((a.vel.multi (-a.friction)).multi
          (delta * (1 / Real.log (numOr a.properties.atomicMass 2)) * 20))
        pos := a.pos.sum ((a.vel.sum ((a.vel.multi (-a.friction)).multi
          (delta * (1 / Real.log (numOr a.properties.atomicMass 2)) * 20))).multi
          (delta * (1 / Real.log (numOr a.properties.atomicMass 2)) * 20)) } := by
  simp [Atom.calcPosition, h]

/-! ## C3 -/

/-- C3: if the velocity magnitude is strictly below `1e-5` before a
`calcPosition(delta)` call, the velocity is exactly `(0,0)` after the call and
the position is unchanged, for any `delta`. -/
theorem calcPosition_rest_snap (a : Atom) (delta : ℝ) (h : a.vel.length < 1e-5) :
    (a.calcPosition delta).vel = ⟨0, 0⟩ ∧ (a.calcPosition delta).pos = a.pos := by
  rw [calcPosition_of_lt a delta h]
  exact ⟨rfl, rfl⟩

/-- Witness for C3 at an atom at rest at position `(3, 4)`. -/
theorem calcPosition_rest_snap_witness :
    (Atom.calcPosition { pos := ⟨3, 4⟩, vel := ⟨0, 0⟩ } 7).vel = ⟨0, 0⟩ ∧
    (Atom.calcPosition { pos := ⟨3, 4⟩, vel := ⟨0, 0⟩ } 7).pos = ⟨3, 4⟩ :=
  calcPosition_rest_snap { pos := ⟨3, 4⟩, vel := ⟨0, 0⟩ } 7
    (by norm_num [Vector2.length])

/-! ## C1 -/

/-- C1 (amended): for every atom whose velocity magnitude is at least `1e-5`,
one `calcPosition(delta)` call first sets the velocity to
`v + (v * -friction) * delta * k` with `k = 20 / ln(atomicMass)` where
`atomicMass` defaults to `2` when absent or zero, and then sets the position
to `p + v2 * delta * k` using that same updated velocity `v2`
(semi-implicit Euler). -/
theorem calcPosition_semiImplicit_euler (a : Atom) (delta : ℝ)
    (h : 1e-5 ≤ a.vel.length) :
    (a.calcPosition delta).vel = a.vel.sum ((a.vel.multi (-a.friction)).multi
      (delta * (20 / Real.log (numOr a.properties.atomicMass 2)))) ∧
    (a.calcPosition delta).pos = a.pos.sum (((a.calcPosition delta).vel).multi
      (delta * (20 / Real.log (numOr a.properties.atomicMass 2)))) := by
  have h' : ¬ a.vel.length < 1e-5 := not_lt.mpr h
  rw [calcPosition_of_ge a delta h']
  constructor
  · simp only [Vector2.sum, Vector2.multi, Vector2.mk.injEq]
    constructor <;> ring
  · simp only [Vector2.sum, Vector2.multi, Vector2.mk.injEq]
    constructor <;> ring

/-- Witness for C1 at an atom with velocity `(1, 0)` and `delta = 1`. -/
theorem calcPosition_semiImplicit_euler_witness :
    (Atom.calcPosition { vel := ⟨1, 0⟩ } 1).vel =
      (Vector2.mk 1 0).sum (((Vector2.mk 1 0).multi (-(1 : ℝ))).multi
        (1 * (20 / Real.log (numOr none 2)))) ∧
    (Atom.calcPosition { vel := ⟨1, 0⟩ } 1).pos =
      (Vector2.mk 0 0).sum (((Atom.calcPosition { vel := ⟨1, 0⟩ } 1).vel).multi
        (1 * (20 / Real.log (numOr none 2)))) :=
  calcPosition_semiImplicit_euler { vel := ⟨1, 0⟩ } 1
    (by norm_num [Vector2.length])

/-- An atom with an explicitly supplied zero atomic mass, velocity `(1, 0)`
and friction `1`: the constructed damping factor uses the default mass `2`,
not the stored mass `0`. -/
def cAtomMassZero : Atom :=
  { vel := ⟨1, 0⟩, friction := 1, properties := { atomicMass := some 0 } }

/-- Counterexample to C1 as stated: at an atom whose `atomicMass` is present
but equal to `0`, the velocity after `calcPosition(1)` differs from the value
predicted with `k = 20 / ln(atomicMass ?? 2)` (the nullish default used only
when the mass is absent), because the code's `||` default also replaces a
zero mass by `2`. -/
theorem calcPosition_nullish_default_counterexample :
    1e-5 ≤ cAtomMassZero.vel.length ∧
    (cAtomMassZero.calcPosition 1).vel ≠
      cAtomMassZero.vel.sum ((cAtomMassZero.vel.multi (-cAtomMassZero.friction)).multi
        (1 * (20 / Real.log (cAtomMassZero.properties.atomicMass.getD 2)))) := by
  have hlen : cAtomMassZero.vel.length = 1 := by
    norm_num [cAtomMassZero, Vector2.length]
  constructor
  · rw [hlen]; norm_num
  · have h' : ¬ cAtomMassZero.vel.length < 1e-5 := by rw [hlen]; norm_num
    rw [calcPosition_of_ge cAtomMassZero 1 h']
    have hlog : (0 : ℝ) < Real.log 2 := Real.log_pos (by norm_num)
    have hne : Real.log 2 ≠ 0 := ne_of_gt hlog
    intro hx
    have hx1 := congrArg Vector2.x hx
    simp only [cAtomMassZero] at hx1
    simp only [Vector2.sum, Vector2.multi, numOr, Option.getD_some,
      Real.log_zero] at hx1
    norm_num at hx1

/-! ## C2 -/

/-- An atom with velocity `(1, 0)`, friction `1` and atomic mass `4`. -/
def cAtomMassFour : Atom :=
  { vel := ⟨1, 0⟩, friction := 1, properties := { atomicMass := some 4 } }

/-- Counterexample to C2 as stated: this atom has non-zero velocity, friction
`1 > 0` and atomic mass `4 ≠ 1`, yet one `calcPosition(1)` call strictly
increases the velocity magnitude (the damping factor `20 / ln 4` exceeds `2`,
so the multiplier `1 - friction * delta * k` has absolute value above `1`). -/
theorem calcPosition_damping_counterexample :
    0 < cAtomMassFour.friction ∧
    cAtomMassFour.properties.atomicMass = some 4 ∧
    cAtomMassFour.vel.length ≠ 0 ∧
    cAtomMassFour.vel.length < (cAtomMassFour.calcPosition 1).vel.length := by
  have hlen : cAtomMassFour.vel.length = 1 := by
    norm_num [cAtomMassFour, Vector2.length]
  have hlogpos : (0 : ℝ) < Real.log 4 := Real.log_pos (by norm_num)
  have hlogten : Real.log 4 < 10 := by
    have := Real.log_lt_sub_one_of_pos (x := 4) (by norm_num) (by norm_num)
    linarith
  have hk : (2 : ℝ) < 20 / Real.log 4 := by
    rw [lt_div_iff₀ hlogpos]; linarith
  refine ⟨by norm_num [cAtomMassFour], rfl, by rw [hlen]; norm_num, ?_⟩
  have h' : ¬ cAtomMassFour.vel.length < 1e-5 := by rw [hlen]; norm_num
  rw [calcPosition_of_ge cAtomMassFour 1 h']
  have hnum : numOr cAtomMassFour.properties.atomicMass 2 = 4 := by
    simp [cAtomMassFour, numOr]
  have hvel : (cAtomMassFour.vel.sum ((cAtomMassFour.vel.multi (-cAtomMassFour.friction)).multi
      (1 * (1 / Real.log (numOr cAtomMassFour.properties.atomicMass 2)) * 20))) =
      cAtomMassFour.vel.multi (1 - 20 / Real.log 4) := by
    rw [sum_multi_neg, hnum, show cAtomMassFour.friction = 1 from rfl]
    congr 1
    ring
  calc cAtomMassFour.vel.length
      = 1 := hlen
    _ < (20 / Real.log 4 - 1) * 1 := by linarith
    _ = |1 - 20 / Real.log 4| * cAtomMassFour.vel.length := by
        rw [hlen, abs_of_neg (by linarith), mul_one, mul_one]; ring
    _ = (cAtomMassFour.vel.multi (1 - 20 / Real.log 4)).length := (length_multi _ _).symm
    _ = _ := by rw [← hvel]

/-- C2 (amended): for every atom and every `delta`, after one
`calcPosition(delta)` call the velocity magnitude does not exceed the
pre-call velocity magnitude, provided the dimensionless step
`friction * delta * k` lies in `[0, 2]`, where `k = 20 / ln(atomicMass)`
with `atomicMass` defaulting to `2` when absent or zero.  (The claim's
conditions `friction > 0` and `atomicMass ≠ 1` alone do not suffice: see the
counterexample with mass `4` and `delta = 1`.) -/
theorem calcPosition_damping_le (a : Atom) (delta : ℝ)
    (h0 : 0 ≤ a.friction * delta * (20 / Real.log (numOr a.properties.atomicMass 2)))
    (h2 : a.friction * delta * (20 / Real.log (numOr a.properties.atomicMass 2)) ≤ 2) :
    ((a.calcPosition delta).vel).length ≤ a.vel.length := by
  by_cases h : a.vel.length < 1e-5
  · rw [calcPosition_of_lt a delta h]
    have : (Vector2.mk (0 : ℝ) 0).length = 0 := by
      norm_num [Vector2.length]
    calc ({ a with vel := ⟨0, 0⟩ } : Atom).vel.length
        = 0 := this
      _ ≤ a.vel.length := length_nonneg _
  · rw [calcPosition_of_ge a delta h]
    have hvel : (a.vel.sum ((a.vel.multi (-a.friction)).multi
        (delta * (1 / Real.log (numOr a.properties.atomicMass 2)) * 20))) =
        a.vel.multi (1 - a.friction * delta *
          (20 / Real.log (numOr a.properties.atomicMass 2))) := by
      rw [sum_multi_neg]
      congr 1
      ring
    rw [hvel, length_multi]
    have habs : |1 - a.friction * delta *
        (20 / Real.log (numOr a.properties.atomicMass 2))| ≤ 1 :=
      abs_le.mpr ⟨by linarith, by linarith⟩
    calc |1 - a.friction * delta * (20 / Real.log (numOr a.properties.atomicMass 2))| *
          a.vel.length
        ≤ 1 * a.vel.length := mul_le_mul_of_nonneg_right habs (length_nonneg _)
      _ = a.vel.length := one_mul _

/-- An atom with velocity `(1, 0)`, friction `1` and no atomic mass. -/
def wAtomDamping : Atom :=
  { vel := ⟨1, 0⟩, friction := 1 }

/-- Witness for C2 at `delta = 1/20`: the dimensionless step is `1 / ln 2`,
which lies in `[0, 2]` because `ln 2 > 1/2`. -/
theorem calcPosition_damping_le_witness :
    ((wAtomDamping.calcPosition (1 / 20)).vel).length ≤ wAtomDamping.vel.length := by
  have hnum : numOr wAtomDamping.properties.atomicMass 2 = 2 := rfl
  have hlog : (0.6931471803 : ℝ) < Real.log 2 := Real.log_two_gt_d9
  have hfr : wAtomDamping.friction = 1 := rfl
  refine calcPosition_damping_le wAtomDamping (1 / 20) ?_ ?_
  · rw [hnum, hfr]
    positivity
  · rw [hnum, hfr]
    rw [show (1 : ℝ) * (1 / 20) * (20 / Real.log 2) = 1 / Real.log 2 by
      field_simp]
    rw [div_le_iff₀ (by linarith)]
    linarith

/-! ## C7 -/

/-- C7: for a fixed positive size, `getAnimatedSize()` equals
`size * (1 + min(vel.length, size*2) / (size*10))`, is monotonically
non-decreasing in the velocity magnitude, and is bounded above by
`size * 3`. -/
theorem getAnimatedSize_formula_mono_bound (a b : Atom)
    (hs : 0 < a.size) (hsz : a.size = b.size) :
    a.getAnimatedSize = a.size * (1 + min (a.vel.length) (a.size * 2) / (a.size * 10)) ∧
    (a.vel.length ≤ b.vel.length → a.getAnimatedSize ≤ b.getAnimatedSize) ∧
    a.getAnimatedSize ≤ a.size * 3 := by
  refine ⟨rfl, ?_, ?_⟩
  · intro hv
    unfold Atom.getAnimatedSize
    rw [← hsz]
    have h1 : min (a.vel.length) (a.size * 2) ≤ min (b.vel.length) (a.size * 2) :=
      min_le_min hv le_rfl
    have h2 : min (a.vel.length) (a.size * 2) / (a.size * 10) ≤
        min (b.vel.length) (a.size * 2) / (a.size * 10) :=
      (div_le_div_iff_of_pos_right (by positivity)).mpr h1
    have h3 : (0 : ℝ) ≤ a.size := le_of_lt hs
    nlinarith
  · unfold Atom.getAnimatedSize
    have hmin : min (a.vel.length) (a.size * 2) ≤ a.size * 2 := min_le_right _ _
    have h2 : min (a.vel.length) (a.size * 2) / (a.size * 10) ≤
        (a.size * 2) / (a.size * 10) :=
      (div_le_div_iff_of_pos_right (by positivity)).mpr hmin
    have h25 : (a.size * 2) / (a.size * 10) = 1 / 5 := by
      rw [div_eq_div_iff (by positivity) (by norm_num)]
      ring
    nlinarith

/-- Witness for C7 at an atom of size `1` at rest, compared with itself. -/
theorem getAnimatedSize_formula_mono_bound_witness :
    (Atom.getAnimatedSize { size := 1 }) =
      (1 : ℝ) * (1 + min ((Vector2.mk 0 0).length) ((1 : ℝ) * 2) / ((1 : ℝ) * 10)) ∧
    ((Vector2.mk 0 0).length ≤ (Vector2.mk 0 0).length →
      (Atom.getAnimatedSize { size := 1 }) ≤ (Atom.getAnimatedSize { size := 1 })) ∧
    (Atom.getAnimatedSize { size := 1 }) ≤ (1 : ℝ) * 3 :=
  getAnimatedSize_formula_mono_bound { size := 1 } { size := 1 } (by norm_num) rfl

/-! ## C8 -/

/-- Any clamp `max lo (min hi x)` lies in `[lo, hi]` when `lo ≤ hi`. -/
lemma clamp_mem (lo hi x : ℝ) (h : lo ≤ hi) :
    lo ≤ max lo (min hi x) ∧ max lo (min hi x) ≤ hi :=
  ⟨le_max_left _ _, max_le h (min_le_left _ _)⟩

/-- C8: for every atom (hence every properties record, including absent
fields), `getStyle()` returns `atomicNumberSize` in `[8, 20]`,
`atomicMassSize` in `[6, 14]` and `symbolFontSize` in `[16, 32]`. -/
theorem getStyle_size_bounds (a : Atom) :
    (8 ≤ (a.getStyle).atomicNumberSize ∧ (a.getStyle).atomicNumberSize ≤ 20) ∧
    (6 ≤ (a.getStyle).atomicMassSize ∧ (a.getStyle).atomicMassSize ≤ 14) ∧
    (16 ≤ (a.getStyle).symbolFontSize ∧ (a.getStyle).symbolFontSize ≤ 32) := by
  unfold Atom.getStyle
  refine ⟨?_, ?_, ?_⟩
  · rcases hn : a.properties.atomicNumber with _ | n
    · simp [hn]; norm_num
    · simp only [hn]
      split_ifs with h0
      · norm_num
      · exact clamp_mem 8 20 (n / 10) (by norm_num)
  · rcases hm : a.properties.atomicMass with _ | m
    · simp [hm]; norm_num
    · simp only [hm]
      split_ifs with h0
      · norm_num
      · exact clamp_mem 6 14 (m / 40) (by norm_num)
  · rcases hs : a.properties.symbol with _ | s
    · simp [hs]; norm_num
    · simp only [hs]
      split_ifs with h0
      · norm_num
      · exact clamp_mem 16 32 (24 + (s.length : ℝ) * 2) (by norm_num)

/-! ## C9 -/

/-- An atom whose electronegativity is present and equal to `0`. -/
def cAtomEnZero : Atom :=
  { properties := { electronegativity := some 0 } }

/-- Counterexample to C9 as stated: this atom's electronegativity is present
and `≤ 1.0`, yet `getStyle().color` is the neutral default `"#0095DD"`, not
the band-A green `"#74D77F"`, because the JavaScript truthiness guard treats
the value `0` like an absent one. -/
theorem getStyle_color_zero_counterexample :
    cAtomEnZero.properties.electronegativity = some 0 ∧
    (0 : ℝ) ≤ 1.0 ∧
    (cAtomEnZero.getStyle).color = "#0095DD" ∧
    (cAtomEnZero.getStyle).color ≠ "#74D77F" := by
  have hc : (cAtomEnZero.getStyle).color = "#0095DD" := by
    unfold Atom.getStyle
    simp [cAtomEnZero]
  refine ⟨rfl, by norm_num, hc, ?_⟩
  rw [hc]
  decide

/-- C9 (amended): `getStyle().color` is classified in three bands by
electronegativity when it is present and non-zero (`≤ 1.0` green `"#74D77F"`,
`≤ 2.0` yellow `"#FFF176"`, otherwise red `"#FF7043"`); the neutral default
`"#0095DD"` is returned exactly when electronegativity is absent or zero. -/
theorem getStyle_color_bands (a : Atom) :
    ((a.properties.electronegativity = none ∨
      a.properties.electronegativity = some 0) →
      (a.getStyle).color = "#0095DD") ∧
    (∀ v : ℝ, a.properties.electronegativity = some v → v ≠ 0 →
      ((v ≤ 1.0 → (a.getStyle).color = "#74D77F") ∧
       (1.0 < v → v ≤ 2.0 → (a.getStyle).color = "#FFF176") ∧
       (2.0 < v → (a.getStyle).color = "#FF7043"))) := by
  constructor
  · rintro (h | h) <;> unfold Atom.getStyle <;> simp [h]
  · intro v hv hv0
    unfold Atom.getStyle
    refine ⟨?_, ?_, ?_⟩
    · intro h1
      simp only [hv]
      rw [if_neg hv0, if_pos h1]
    · intro h1 h2
      simp only [hv]
      rw [if_neg hv0, if_neg (by linarith), if_pos h2]
    · intro h2
      simp only [hv]
      rw [if_neg hv0, if_neg (by linarith), if_neg (by linarith)]

/-- An atom whose electronegativity is present and equal to `1/2`. -/
noncomputable def wAtomEnHalf : Atom :=
  { properties := { electronegativity := some (1 / 2) } }

/-- Witness for C9: electronegativity `1/2` is non-zero and at most `1.0`,
so the color is the band-A green. -/
theorem getStyle_color_bands_witness :
    (wAtomEnHalf.getStyle).color = "#74D77F" :=
  (((getStyle_color_bands wAtomEnHalf).2 (1 / 2) rfl (by norm_num)).1 (by norm_num))

/-! ## C10 -/

/-- C10: the constructor coalesces explicitly supplied zero values to the
defaults: with `size = 0` in the config the constructed size is `25` plus the
mass contribution, exactly as if `size` were absent; with `friction = 0` the
constructed friction is `1`; and no constructed atom has friction `0`. -/
theorem mkAtom_zero_coalescing (c : AtomConfig) (freshId : String) (ref : ℕ)
    (hsz : c.size = some 0) (hfr : c.friction = some 0) :
    (mkAtom (some c) freshId ref).size =
      25 + (numOr (c.properties.getD {}).atomicMass 1) ^ (1.2 : ℝ) / 10 ∧
    (mkAtom (some c) freshId ref).size =
      (mkAtom (some { c with size := none }) freshId ref).size ∧
    (mkAtom (some c) freshId ref).friction = 1 ∧
    ∀ c2 : AtomConfig, (mkAtom (some c2) freshId ref).friction ≠ 0 := by
  refine ⟨?_, ?_, ?_, ?_⟩
  · simp [mkAtom, hsz, numOr]
  · simp [mkAtom, hsz, numOr]
  · simp [mkAtom, hfr, numOr]
  · intro c2
    simp only [mkAtom, Option.getD_some]
    rcases h : c2.friction with _ | v
    · simp [numOr]
    · simp only [numOr]
      split_ifs with h0
      · norm_num
      · exact h0

/-- Witness for C10 at the config whose size and friction are both the
explicit zero. -/
theorem mkAtom_zero_coalescing_witness :
    (mkAtom (some { size := some 0, friction := some 0 }) "w" 0).size =
      25 + (numOr (Option.getD none {} : AtomProperties).atomicMass 1) ^ (1.2 : ℝ) / 10 ∧
    (mkAtom (some { size := some 0, friction := some 0 }) "w" 0).size =
      (mkAtom (some { size := none, friction := some 0 }) "w" 0).size ∧
    (mkAtom (some { size := some 0, friction := some 0 }) "w" 0).friction = 1 ∧
    ∀ c2 : AtomConfig, (mkAtom (some c2) "w" 0).friction ≠ 0 :=
  mkAtom_zero_coalescing { size := some 0, friction := some 0 } "w" 0 rfl rfl

/-! ## C5 -/

lemma neg_pi_lt_atan2 (y x : ℝ) : -Real.pi < atan2 y x :=
  Complex.neg_pi_lt_arg _

lemma atan2_le_pi (y x : ℝ) : atan2 y x ≤ Real.pi :=
  Complex.arg_le_pi _

lemma calculateAngle_eq_of_connected (bonds : List Bond) (a1 a2 a3 : Atom)
    (h : (a1.isBondedWith bonds a2 && a2.isBondedWith bonds a3 &&
      a3.isBondedWith bonds a1) = true) :
    Atom.calculateAngle bonds a1 a2 a3 =
      some ((if atan2 (a3.pos.sub a2.pos).y (a3.pos.sub a2.pos).x -
              atan2 (a1.pos.sub a2.pos).y (a1.pos.sub a2.pos).x < 0 then
            atan2 (a3.pos.sub a2.pos).y (a3.pos.sub a2.pos).x -
              atan2 (a1.pos.sub a2.pos).y (a1.pos.sub a2.pos).x + 2 * Real.pi
          else
            atan2 (a3.pos.sub a2.pos).y (a3.pos.sub a2.pos).x -
              atan2 (a1.pos.sub a2.pos).y (a1.pos.sub a2.pos).x) * (180 / Real.pi)) := by
  simp [Atom.calculateAngle, h]

lemma calculateAngle_eq_of_not_connected (bonds : List Bond) (a1 a2 a3 : Atom)
    (h : (a1.isBondedWith bonds a2 && a2.isBondedWith bonds a3 &&
      a3.isBondedWith bonds a1) = false) :
    Atom.calculateAngle bonds a1 a2 a3 = none := by
  simp [Atom.calculateAngle, h]

/-- The normalization and degree conversion maps any value of `(-2π, 2π)`
into `[0, 360)`. -/
lemma normalized_deg_mem (r : ℝ) (h1 : -(2 * Real.pi) < r) (h2 : r < 2 * Real.pi) :
    0 ≤ (if r < 0 then r + 2 * Real.pi else r) * (180 / Real.pi) ∧
    (if r < 0 then r + 2 * Real.pi else r) * (180 / Real.pi) < 360 := by
  have hpi := Real.pi_pos
  have hd : (0 : ℝ) < 180 / Real.pi := by positivity
  have h360 : 2 * Real.pi * (180 / Real.pi) = 360 := by
    field_simp
    ring
  split_ifs with hr
  · constructor
    · exact mul_nonneg (by linarith) (le_of_lt hd)
    · have h3 : r + 2 * Real.pi < 2 * Real.pi := by linarith
      have h4 := mul_lt_mul_of_pos_right h3 hd
      linarith
  · constructor
    · exact mul_nonneg (by linarith [not_lt.mp hr]) (le_of_lt hd)
    · have h4 := mul_lt_mul_of_pos_right h2 hd
      linarith

/-- C5: `calculateAngle(bonds, a, b, c)` returns the no-angle sentinel `none`
if and only if at least one of the three pairwise bonds `a-b`, `b-c`, `c-a`
is missing from the list; when all three bonds are present the returned value
lies in `[0, 360)` degrees. -/
theorem calculateAngle_none_iff_and_range (bonds : List Bond) (a1 a2 a3 : Atom) :
    (Atom.calculateAngle bonds a1 a2 a3 = none ↔
      (a1.isBondedWith bonds a2 = false ∨ a2.isBondedWith bonds a3 = false ∨
       a3.isBondedWith bonds a1 = false)) ∧
    (∀ θ : ℝ, Atom.calculateAngle bonds a1 a2 a3 = some θ → 0 ≤ θ ∧ θ < 360) := by
  by_cases hb : (a1.isBondedWith bonds a2 && a2.isBondedWith bonds a3 &&
      a3.isBondedWith bonds a1) = true
  · obtain ⟨⟨h12, h23⟩, h31⟩ :
        (a1.isBondedWith bonds a2 = true ∧ a2.isBondedWith bonds a3 = true) ∧
        a3.isBondedWith bonds a1 = true := by
      simpa [Bool.and_eq_true] using hb
    constructor
    · rw [calculateAngle_eq_of_connected bonds a1 a2 a3 hb]
      simp [h12, h23, h31]
    · intro θ hθ
      rw [calculateAngle_eq_of_connected bonds a1 a2 a3 hb] at hθ
      have hθ' := Option.some.inj hθ
      subst hθ'
      apply normalized_deg_mem
      · have b1 := atan2_le_pi (a1.pos.sub a2.pos).y (a1.pos.sub a2.pos).x
        have b2 := neg_pi_lt_atan2 (a3.pos.sub a2.pos).y (a3.pos.sub a2.pos).x
        linarith
      · have b1 := neg_pi_lt_atan2 (a1.pos.sub a2.pos).y (a1.pos.sub a2.pos).x
        have b2 := atan2_le_pi (a3.pos.sub a2.pos).y (a3.pos.sub a2.pos).x
        linarith
  · have hbf : (a1.isBondedWith bonds a2 && a2.isBondedWith bonds a3 &&
        a3.isBondedWith bonds a1) = false := by
      simpa using hb
    have hdisj : a1.isBondedWith bonds a2 = false ∨
        a2.isBondedWith bonds a3 = false ∨ a3.isBondedWith bonds a1 = false := by
      cases h1 : a1.isBondedWith bonds a2 with
      | false => exact Or.inl rfl
      | true =>
        cases h2 : a2.isBondedWith bonds a3 with
        | false => exact Or.inr (Or.inl rfl)
        | true =>
          cases h3 : a3.isBondedWith bonds a1 with
          | false => exact Or.inr (Or.inr rfl)
          | true => exact absurd (by simp [h1, h2, h3]) hb
    constructor
    · exact iff_of_true (calculateAngle_eq_of_not_connected bonds a1 a2 a3 hbf) hdisj
    · intro θ hθ
      rw [calculateAngle_eq_of_not_connected bonds a1 a2 a3 hbf] at hθ
      exact absurd hθ (by simp)

/-- The atom at `(2, 0)` (arena reference `0`). -/
def wAtomP : Atom := { pos := ⟨2, 0⟩, ref := 0 }

/-- The atom at `(1, 0)` (arena reference `1`). -/
def wAtomQ : Atom := { pos := ⟨1, 0⟩, ref := 1 }

/-- The atom at `(3, 0)` (arena reference `2`). -/
def wAtomR : Atom := { pos := ⟨3, 0⟩, ref := 2 }

/-- The three pairwise bonds of the collinear triple. -/
def wBondsPQR : List Bond := [⟨wAtomP, wAtomQ⟩, ⟨wAtomQ, wAtomR⟩, ⟨wAtomR, wAtomP⟩]

/-- On the fully bonded collinear triple the angle query evaluates to `0`
degrees. -/
lemma calculateAngle_collinear_eval :
    Atom.calculateAngle wBondsPQR wAtomP wAtomQ wAtomR = some 0 := by
  have hcon : (wAtomP.isBondedWith wBondsPQR wAtomQ &&
      wAtomQ.isBondedWith wBondsPQR wAtomR &&
      wAtomR.isBondedWith wBondsPQR wAtomP) = true := by decide
  rw [calculateAngle_eq_of_connected _ _ _ _ hcon]
  have hv1 : wAtomP.pos.sub wAtomQ.pos = ⟨1, 0⟩ := by
    show Vector2.sub ⟨2, 0⟩ ⟨1, 0⟩ = ⟨1, 0⟩
    simp [Vector2.sub]
    norm_num
  have hv2 : wAtomR.pos.sub wAtomQ.pos = ⟨2, 0⟩ := by
    show Vector2.sub ⟨3, 0⟩ ⟨1, 0⟩ = ⟨2, 0⟩
    simp [Vector2.sub]
    norm_num
  rw [hv1, hv2]
  have h1 : atan2 (Vector2.mk 1 0).y (Vector2.mk 1 0).x = 0 := by
    show Complex.arg ⟨1, 0⟩ = 0
    have he : (⟨1, 0⟩ : ℂ) = 1 := by
      apply Complex.ext <;> simp
    rw [he, Complex.arg_one]
  have h2 : atan2 (Vector2.mk 2 0).y (Vector2.mk 2 0).x = 0 := by
    show Complex.arg ⟨2, 0⟩ = 0
    have he : (⟨2, 0⟩ : ℂ) = ((2 : ℝ) : ℂ) := by
      apply Complex.ext <;> simp
    rw [he, Complex.arg_ofReal_of_nonneg (by norm_num)]
  rw [h1, h2]
  norm_num

/-- Witness for C5: with an empty bond list the query returns `none`, and on
the fully bonded collinear triple the returned angle `0` satisfies the
`[0, 360)` bounds delivered by the theorem. -/
theorem calculateAngle_none_iff_and_range_witness :
    Atom.calculateAngle [] wAtomP wAtomQ wAtomR = none ∧
    (0 ≤ (0 : ℝ) ∧ (0 : ℝ) < 360) :=
  ⟨(calculateAngle_none_iff_and_range [] wAtomP wAtomQ wAtomR).1.mpr (Or.inl rfl),
   (calculateAngle_none_iff_and_range wBondsPQR wAtomP wAtomQ wAtomR).2 0
     calculateAngle_collinear_eval⟩

/-! ## C6 -/

/-- The atom at `(0, 0)` (arena reference `0`). -/
def tAtomA : Atom := { pos := ⟨0, 0⟩, ref := 0 }

/-- The atom at `(1, 0)` (arena reference `1`). -/
def tAtomB : Atom := { pos := ⟨1, 0⟩, ref := 1 }

/-- The atom at `(1, 1)` (arena reference `2`). -/
def tAtomC : Atom := { pos := ⟨1, 1⟩, ref := 2 }

/-- The three pairwise bonds of the right-angle triple. -/
def tBondsABC : List Bond := [⟨tAtomA, tAtomB⟩, ⟨tAtomB, tAtomC⟩, ⟨tAtomC, tAtomA⟩]

/-- On the fully bonded triple at `(0,0)`, `(1,0)`, `(1,1)` the angle query at
vertex `(1,0)` evaluates to `270` degrees: the rays point at arguments `π`
(towards `(0,0)`) and `π/2` (towards `(1,1)`), the difference `-π/2` is
normalized to `3π/2`. -/
lemma calculateAngle_rightTriangle_eval :
    Atom.calculateAngle tBondsABC tAtomA tAtomB tAtomC = some 270 := by
  have hcon : (tAtomA.isBondedWith tBondsABC tAtomB &&
      tAtomB.isBondedWith tBondsABC tAtomC &&
      tAtomC.isBondedWith tBondsABC tAtomA) = true := by decide
  rw [calculateAngle_eq_of_connected _ _ _ _ hcon]
  have hv1 : tAtomA.pos.sub tAtomB.pos = ⟨-1, 0⟩ := by
    show Vector2.sub ⟨0, 0⟩ ⟨1, 0⟩ = ⟨-1, 0⟩
    simp [Vector2.sub]
  have hv2 : tAtomC.pos.sub tAtomB.pos = ⟨0, 1⟩ := by
    show Vector2.sub ⟨1, 1⟩ ⟨1, 0⟩ = ⟨0, 1⟩
    simp [Vector2.sub]
  rw [hv1, hv2]
  have h1 : atan2 (Vector2.mk (-1) 0).y (Vector2.mk (-1) 0).x = Real.pi := by
    show Complex.arg ⟨-1, 0⟩ = Real.pi
    have he : (⟨-1, 0⟩ : ℂ) = -1 := by
      apply Complex.ext <;> simp
    rw [he, Complex.arg_neg_one]
  have h2 : atan2 (Vector2.mk 0 1).y (Vector2.mk 0 1).x = Real.pi / 2 := by
    show Complex.arg ⟨0, 1⟩ = Real.pi / 2
    have he : (⟨0, 1⟩ : ℂ) = Complex.I := by
      apply Complex.ext <;> simp
    rw [he, Complex.arg_I]
  rw [h1, h2]
  have hneg : Real.pi / 2 - Real.pi < 0 := by linarith [Real.pi_pos]
  rw [if_pos hneg]
  congr 1
  field_simp
  ring

/-- Counterexample to C6 as stated: for the fully pairwise-bonded atoms at
`(0,0)`, `(1,0)`, `(1,1)`, the angle query at vertex `(1,0)` with neighbors
`(0,0)` and `(1,1)` does not return `90` degrees (it returns the
counterclockwise angle `270`). -/
theorem calculateAngle_rightTriangle_not_ninety :
    tAtomA.pos = ⟨0, 0⟩ ∧ tAtomB.pos = ⟨1, 0⟩ ∧ tAtomC.pos = ⟨1, 1⟩ ∧
    Atom.calculateAngle tBondsABC tAtomA tAtomB tAtomC ≠ some 90 := by
  refine ⟨rfl, rfl, rfl, ?_⟩
  rw [calculateAngle_rightTriangle_eval]
  intro h
  have h' := Option.some.inj h
  norm_num at h'

/-- C6 (amended): for the three fully pairwise-bonded atoms at `(0,0)`,
`(1,0)` and `(1,1)`, the angle query at vertex `(1,0)` with neighbors `(0,0)`
and `(1,1)` returns `270` degrees — the counterclockwise angle from the ray
towards `(0,0)` to the ray towards `(1,1)` — not the geometric `90` degrees. -/
theorem calculateAngle_rightTriangle_eq_270 :
    tAtomA.pos = ⟨0, 0⟩ ∧ tAtomB.pos = ⟨1, 0⟩ ∧ tAtomC.pos = ⟨1, 1⟩ ∧
    Atom.calculateAngle tBondsABC tAtomA tAtomB tAtomC = some 270 :=
  ⟨rfl, rfl, rfl, calculateAngle_rightTriangle_eval⟩
